import Mathlib

/-!
Verification of the policycraft-ai wellbeing dashboard core logic.

The definitions below are a shallow embedding of the repository's Python
source into Lean 4:

* `src/oecd_transform.py` — the offline batch transform (normalization of
  each dimension column to a 0-100 scale, composite index, gaps).
  Floating-point column arithmetic is modelled over `ℚ`; `pandas`
  `Series.rank(pct=True)` (method `average`) is modelled by `rankPct`;
  `Series.round(1)` by `round1` (numpy rounds half-to-even, Lean's `round`
  rounds half-up; no statement proved here depends on the behaviour at an
  exact tie).
* `src/policy.py` — the mode (a) scenario simulator (`_update_logic`):
  percentage boosts on environment / education / jobs, capped at 100, and
  the fixed weighted-sum life-satisfaction proxy.
* `src/simulator.py` — the mode (b) scenario simulator (`_update_logic`):
  a flat point improvement on one dimension and a Pearson-correlation
  scaled life-satisfaction projection.  Modelled over `ℝ` because the
  Pearson correlation involves a square root.
* `src/diagonosis.py` — the gap-diagnostic narrative generator
  (`_generate_narrative`): strengths / weaknesses / weakest-dimension
  selection from the sorted gap list and the top performer by composite
  index.
* The `update` callbacks of `src/policy.py` and `src/simulator.py` — the
  per-feature `try/except` error boundary; Python exceptions raised by the
  core `_update_logic` are modelled by the `Except.error` case of an
  arbitrary fallible core function.
-/

/-- The ten wellbeing dimensions (short names from `key_measures` in
`src/oecd_transform.py`). -/
inductive Dim where
  | life_satisfaction
  | health
  | income
  | education
  | jobs
  | work_life_balance
  | safety
  | environment
  | social_connections
  | housing
  deriving DecidableEq, Repr

/-! ## Transform step (`src/oecd_transform.py`, STEP 6-7) -/

/-- `pandas Series.rank(pct=True)` with the default method `average`,
evaluated at one element `x` of the column `xs`: the average rank of the
tied group of `x` (number of strictly smaller entries, plus half the tied
group size plus one half), divided by the column length. -/
def rankPct (xs : List ℚ) (x : ℚ) : ℚ :=
  ((xs.countP (fun y => y < x) : ℚ) + ((xs.countP (fun y => y = x) : ℚ) + 1) / 2)
    / (xs.length : ℚ)

/-- `Series.min()` over a column, modelled by a fold (0 on the empty
column, which the transform never hits for a surviving country). -/
def colMin : List ℚ → ℚ
  | [] => 0
  | x :: xs => xs.foldl min x

/-- `Series.max()` over a column. -/
def colMax : List ℚ → ℚ
  | [] => 0
  | x :: xs => xs.foldl max x

/-- One iteration of the STEP 6 normalization loop of
`src/oecd_transform.py` applied to a single dimension column:
`(1 - rank(pct=True)) * 100` for inverted measures, otherwise min-max
scaling to 0-100 with the constant-column degenerate case set to 50.0. -/
def normalizeColumn (invert : Bool) (xs : List ℚ) : List ℚ :=
  if invert then
    xs.map (fun x => (1 - rankPct xs x) * 100)
  else
    if colMin xs < colMax xs then
      xs.map (fun x => (x - colMin xs) / (colMax xs - colMin xs) * 100)
    else
      xs.map (fun _ => 50)

/-- `Series.round(1)`: round to one decimal place. -/
def round1 (x : ℚ) : ℚ := (round (10 * x) : ℚ) / 10

/-- The `df_wide[col] = df_wide[col].round(1)` pass after normalization. -/
def roundCol (xs : List ℚ) : List ℚ := xs.map round1

/-- The normalized value an individual raw entry `x` of an inverted
column `xs` receives (the composition of the inverted branch of
`normalizeColumn` with the rounding pass). -/
def invNorm (xs : List ℚ) (x : ℚ) : ℚ := round1 ((1 - rankPct xs x) * 100)

/-- STEP 7 of `src/oecd_transform.py`:
`composite_index = df_wide[dimension_cols].mean(axis=1).round(1)` for one
country, `vals` being that country's normalized dimension values. -/
def compositeIndex (vals : List ℚ) : ℚ := round1 (vals.sum / (vals.length : ℚ))

/-! ## Policy simulation, mode (a) (`src/policy.py`, `_update_logic`) -/

/-- One row of the processed wellbeing table as consumed by
`src/policy.py`: the country name and the ten normalized dimension
values. -/
structure PolicyRow where
  country : String
  life_satisfaction : ℚ
  health : ℚ
  income : ℚ
  education : ℚ
  jobs : ℚ
  work_life_balance : ℚ
  safety : ℚ
  environment : ℚ
  social_connections : ℚ
  housing : ℚ
  deriving DecidableEq, Repr

/-- Dynamic column access `row[dimension]` by dimension key. -/
def PolicyRow.get (r : PolicyRow) : Dim → ℚ
  | .life_satisfaction => r.life_satisfaction
  | .health => r.health
  | .income => r.income
  | .education => r.education
  | .jobs => r.jobs
  | .work_life_balance => r.work_life_balance
  | .safety => r.safety
  | .environment => r.environment
  | .social_connections => r.social_connections
  | .housing => r.housing

/-- The simulated columns of `df_sim` built by `_update_logic` of
`src/policy.py` for a single row. -/
structure SimColumns where
  environment_sim : ℚ
  education_sim : ℚ
  jobs_sim : ℚ
  life_satisfaction_sim : ℚ
  deriving DecidableEq, Repr

/-- The mode (a) simulation arithmetic of `_update_logic` in
`src/policy.py`: each boosted column is multiplied by
`(1 + boost/100)` and capped at 100 by `np.minimum(., 100)`;
`life_satisfaction_sim` is the weighted sum with the `weights` table of
the source (environment 0.15, education 0.15, jobs 0.20, safety 0.10,
income 0.10, housing 0.10, health 0.10, work_life_balance 0.05,
social_connections 0.05). -/
def simulateA (r : PolicyRow) (environment_boost education_boost jobs_boost : ℚ) :
    SimColumns :=
  let environment_sim := min (r.environment * (1 + environment_boost / 100)) 100
  let education_sim := min (r.education * (1 + education_boost / 100)) 100
  let jobs_sim := min (r.jobs * (1 + jobs_boost / 100)) 100
  { environment_sim := environment_sim
    education_sim := education_sim
    jobs_sim := jobs_sim
    life_satisfaction_sim :=
      environment_sim * 0.15 + education_sim * 0.15 + jobs_sim * 0.20 +
      r.safety * 0.10 + r.income * 0.10 + r.housing * 0.10 + r.health * 0.10 +
      r.work_life_balance * 0.05 + r.social_connections * 0.05 }

/-- The `df_sim['dimension_sim']` column selection of `_update_logic` in
`src/policy.py`: the simulated column for the three boosted dimensions,
the raw column otherwise. -/
def dimensionSim (r : PolicyRow) (dim : Dim)
    (environment_boost education_boost jobs_boost : ℚ) : ℚ :=
  match dim with
  | .environment => (simulateA r environment_boost education_boost jobs_boost).environment_sim
  | .education => (simulateA r environment_boost education_boost jobs_boost).education_sim
  | .jobs => (simulateA r environment_boost education_boost jobs_boost).jobs_sim
  | d => r.get d

/-- The figure assembled by `_update_logic` of `src/policy.py`, modelled
by its numeric content: `.message` for an annotated empty figure,
`.chart` for the list of scatter traces, each a list of (x, y) points.
The "Current Position" trace is always present; the "Simulated Position"
trace is appended only when some boost is strictly positive. -/
inductive PolicyFig where
  | message (text : String)
  | chart (traces : List (List (ℚ × ℚ)))
  deriving DecidableEq, Repr

/-- `_update_logic` of `src/policy.py` after input resolution: empty
filtered table short-circuits to the "No data available" figure. -/
def policyFigure (df : List PolicyRow) (dim : Dim)
    (environment_boost education_boost jobs_boost : ℚ) : PolicyFig :=
  if df.isEmpty then .message "No data available"
  else
    .chart ([df.map (fun r => (r.get dim, r.life_satisfaction))] ++
      (if 0 < environment_boost ∨ 0 < education_boost ∨ 0 < jobs_boost then
        [df.map (fun r =>
          (dimensionSim r dim environment_boost education_boost jobs_boost,
           (simulateA r environment_boost education_boost jobs_boost).life_satisfaction_sim))]
      else []))

/-- `_update_logic` of `src/policy.py` including the `kwargs.get` /
`None`-check default substitution (dimension default `environment`,
boost defaults 0). -/
def policyUpdateLogic (df : List PolicyRow) (dim? : Option Dim)
    (environment_boost? education_boost? jobs_boost? : Option ℚ) : PolicyFig :=
  policyFigure df (dim?.getD .environment) (environment_boost?.getD 0)
    (education_boost?.getD 0) (jobs_boost?.getD 0)

/-- The conclusion of claim C4 (the mode (a) formulas), as a predicate on
the inputs. -/
def ModeASpec (r : PolicyRow) (eb edb jb : ℚ) : Prop :=
  (simulateA r eb edb jb).environment_sim = min 100 (r.environment * (1 + eb / 100)) ∧
  (simulateA r eb edb jb).education_sim = min 100 (r.education * (1 + edb / 100)) ∧
  (simulateA r eb edb jb).jobs_sim = min 100 (r.jobs * (1 + jb / 100)) ∧
  (simulateA r eb edb jb).environment_sim ≤ 100 ∧
  (simulateA r eb edb jb).education_sim ≤ 100 ∧
  (simulateA r eb edb jb).jobs_sim ≤ 100 ∧
  (∀ d : Dim, d ≠ .environment → d ≠ .education → d ≠ .jobs →
    dimensionSim r d eb edb jb = r.get d) ∧
  (simulateA r eb edb jb).life_satisfaction_sim =
    (simulateA r eb edb jb).environment_sim * 0.15 +
    (simulateA r eb edb jb).education_sim * 0.15 +
    (simulateA r eb edb jb).jobs_sim * 0.20 +
    r.safety * 0.10 + r.income * 0.10 + r.housing * 0.10 + r.health * 0.10 +
    r.work_life_balance * 0.05 + r.social_connections * 0.05

/-- The nine boostable/summed dimension values of a row all lie in
[0,100] (the post-transform range guaranteed by the batch transform). -/
def InRange9 (r : PolicyRow) : Prop :=
  (0 ≤ r.health ∧ r.health ≤ 100) ∧ (0 ≤ r.income ∧ r.income ≤ 100) ∧
  (0 ≤ r.education ∧ r.education ≤ 100) ∧ (0 ≤ r.jobs ∧ r.jobs ≤ 100) ∧
  (0 ≤ r.work_life_balance ∧ r.work_life_balance ≤ 100) ∧
  (0 ≤ r.safety ∧ r.safety ≤ 100) ∧ (0 ≤ r.environment ∧ r.environment ≤ 100) ∧
  (0 ≤ r.social_connections ∧ r.social_connections ≤ 100) ∧
  (0 ≤ r.housing ∧ r.housing ≤ 100)

/-! ## AI simulation insight, mode (b) (`src/simulator.py`, `_update_logic`) -/

/-- One row of the table as consumed by `src/simulator.py`: the country
name and dynamic column access for the dimension columns.  Modelled over
`ℝ` because the Pearson correlation used below involves a square root. -/
structure SimRow where
  country : String
  get : Dim → ℝ

/-- Column mean. -/
noncomputable def colMean (xs : List ℝ) : ℝ := xs.sum / xs.length

/-- Pearson product-moment correlation of two columns, the default of
`pandas Series.corr`: the centered cross moment over the product of the
square roots of the centered second moments.  Division by zero — where
pandas yields NaN (a single-row or constant column) — follows Lean's
zero convention; every statement below that asserts a concrete value of
an expression containing the correlation is therefore guarded by
`CorrDefined`, which excludes exactly that region. -/
noncomputable def pearsonCorr (xs ys : List ℝ) : ℝ :=
  (List.zipWith (fun a b => (a - colMean xs) * (b - colMean ys)) xs ys).sum /
    (Real.sqrt ((xs.map (fun a => (a - colMean xs) ^ 2)).sum) *
      Real.sqrt ((ys.map (fun b => (b - colMean ys) ^ 2)).sum))

/-- The Pearson correlation of two columns is well-defined, i.e. pandas
`Series.corr` returns a number rather than NaN: both centered second
moments are nonzero (each column has at least two distinct values). -/
def CorrDefined (xs ys : List ℝ) : Prop :=
  (xs.map (fun a => (a - colMean xs) ^ 2)).sum ≠ 0 ∧
  (ys.map (fun b => (b - colMean ys) ^ 2)).sum ≠ 0

/-- The numeric output of `_update_logic` of `src/simulator.py` (the
figure and narrative are rendered from exactly these four numbers). -/
inductive SimOutput where
  | noData
  | noDataFor (country : String)
  | result (current_dimension_val current_life_sat new_dimension_val new_life_sat : ℝ)

/-- `_update_logic` of `src/simulator.py` including the `kwargs.get` /
`None`-check default substitution (country default "United States",
dimension default `environment`, improvement default 10):
`new_dimension_val = current_dimension_val + improvement` (no cap, no
re-clamping) and `new_life_sat = current_life_sat + improvement *
correlation * 0.3` with `correlation` the Pearson correlation between the
`life_satisfaction` column and the selected dimension column over the
full filtered table. -/
noncomputable def simUpdateLogic (df : List SimRow) (country? : Option String)
    (dim? : Option Dim) (improvement? : Option ℝ) : SimOutput :=
  if df.isEmpty then .noData
  else
    let country := country?.getD "United States"
    let dim := dim?.getD .environment
    let improvement := improvement?.getD 10
    match (df.filter (fun r => r.country == country)).head? with
    | none => .noDataFor country
    | some row =>
      let current_life_sat := row.get .life_satisfaction
      let current_dimension_val := row.get dim
      let correlation :=
        pearsonCorr (df.map (fun r => r.get .life_satisfaction))
          (df.map (fun r => r.get dim))
      let estimated_life_sat_increase := improvement * correlation * 0.3
      .result current_dimension_val current_life_sat
        (current_dimension_val + improvement)
        (current_life_sat + estimated_life_sat_increase)

/-! ## Diagnostic narrative (`src/diagonosis.py`) -/

/-- Descending sort of (label, gap) pairs, modelling
`dimension_gaps.sort(key=lambda x: x[1], reverse=True)`. -/
def sortGapsDesc (l : List (String × ℚ)) : List (String × ℚ) :=
  List.insertionSort (fun a b => b.2 ≤ a.2) l

/-- The selections `_generate_narrative` of `src/diagonosis.py` makes
from the gap vector. -/
structure NarrativeSel where
  strengths : List (String × ℚ)
  weaknesses : List (String × ℚ)
  worst_dimension : Option (String × ℚ)
  deriving DecidableEq, Repr

/-- The selection logic of `_generate_narrative` in `src/diagonosis.py`:
sort descending by gap, then
`strengths = [d for d in dimension_gaps if d[1] > 0][:2]`,
`weaknesses = [d for d in dimension_gaps if d[1] < 0][-2:]`,
`worst_dimension = dimension_gaps[-1]` (when nonempty). -/
def narrativeSelect (dimension_gaps : List (String × ℚ)) : NarrativeSel :=
  { strengths := ((sortGapsDesc dimension_gaps).filter (fun d => 0 < d.2)).take 2
    weaknesses :=
      ((sortGapsDesc dimension_gaps).filter (fun d => d.2 < 0)).drop
        (((sortGapsDesc dimension_gaps).filter (fun d => d.2 < 0)).length - 2)
    worst_dimension := (sortGapsDesc dimension_gaps).getLast? }

/-- `composite_scores.sort_values(ascending=False).index[0]` of
`_generate_narrative`: the top performer by `composite_index`.  (pandas'
default sort is unstable, so the choice among tied maxima is unspecified;
the property proved about this definition only uses that the chosen
country attains the maximum.) -/
def topPerformer (composite_scores : List (String × ℚ)) : Option (String × ℚ) :=
  (List.insertionSort (fun a b => b.2 ≤ a.2) composite_scores).head?

/-- One row of the table as consumed by `src/diagonosis.py`: country,
`composite_index` and the ten `_gap` columns. -/
structure DiagRow where
  country : String
  composite_index : ℚ
  gap : Dim → ℚ

/-- The `dimension_names` display labels of `src/diagonosis.py`. -/
def dimLabel : Dim → String
  | .life_satisfaction => "Life Satisfaction"
  | .health => "Health"
  | .income => "Income"
  | .education => "Education"
  | .jobs => "Jobs"
  | .work_life_balance => "Work-Life Balance"
  | .safety => "Safety"
  | .environment => "Environment"
  | .social_connections => "Social Connections"
  | .housing => "Housing"

/-- The `gap_columns` iteration order of `_update_logic` in
`src/diagonosis.py`. -/
def gapColumnOrder : List Dim :=
  [.life_satisfaction, .health, .income, .education, .jobs,
   .work_life_balance, .safety, .environment, .social_connections, .housing]

/-- The (label, gap value) pairs `_update_logic` extracts for the
selected country, in `gap_columns` order. -/
def gapPairs (row : DiagRow) : List (String × ℚ) :=
  gapColumnOrder.map (fun d => (dimLabel d, row.gap d))

/-- The numeric output of `_update_logic` of `src/diagonosis.py`. -/
inductive DiagOutput where
  | noData
  | noDataFor (country : String)
  | result (gaps : List (String × ℚ)) (sel : NarrativeSel) (top : Option (String × ℚ))

/-- `_update_logic` of `src/diagonosis.py` including the `kwargs.get` /
`None`-check default substitution (country default "Finland"). -/
def diagUpdateLogic (df : List DiagRow) (country? : Option String) : DiagOutput :=
  if df.isEmpty then .noData
  else
    let selected_country := country?.getD "Finland"
    match (df.filter (fun r => r.country == selected_country)).head? with
    | none => .noDataFor selected_country
    | some row =>
      .result (gapPairs row) (narrativeSelect (gapPairs row))
        (topPerformer (df.map (fun r => (r.country, r.composite_index))))

/-! ## Per-feature error boundary (`update` in `src/policy.py` and
`src/simulator.py`) -/

/-- The annotated placeholder `empty_fig` built at the top of each
`update` callback. -/
def errorPlaceholder : PolicyFig :=
  .message "An error occurred while updating this chart"

/-- The `try/except Exception` boundary of `update` in `src/policy.py`.
The core `_update_logic` is modelled as an arbitrary fallible function of
the callback inputs (a raised Python exception = `Except.error` with its
message; the formatted error text's traceback suffix is elided). -/
def policyUpdate {Input : Type} (core : Input → Except String PolicyFig)
    (kwargs : Input) : PolicyFig × String :=
  match core kwargs with
  | .ok figure => (figure, "")
  | .error e => (errorPlaceholder, "Error updating chart: " ++ e)

/-- The `try/except Exception` boundary of `update` in
`src/simulator.py`: three outputs (figure, narrative, error text); on
error the narrative slot is the fixed "Error generating AI narrative."
element. -/
def simFeatureUpdate {Input : Type}
    (core : Input → Except String (PolicyFig × String)) (kwargs : Input) :
    PolicyFig × String × String :=
  match core kwargs with
  | .ok fn => (fn.1, fn.2, "")
  | .error e =>
    (errorPlaceholder, "Error generating AI narrative.", "Error updating chart: " ++ e)

/-- The conclusion of the amended claim C5: zero boosts leave the mode
(a) simulated dimension columns and the emitted figure at the base
values, while `life_satisfaction_sim` is the weighted sum of the base
dimensions; and a zero improvement leaves the mode (b) outputs exactly
at the base values whenever the Pearson correlation of the two columns
is well-defined (on a degenerate filtered table — a single row or a
constant column, reachable through the filter controls — pandas
`Series.corr` is NaN and the program's simulated life satisfaction is
`current + 0 * NaN * 0.3 = NaN`, not the base value, so that region is
excluded by the `CorrDefined` guard). -/
def ZeroBoostSpec (r : PolicyRow) (dim : Dim) (df : List PolicyRow) : Prop :=
  (simulateA r 0 0 0).environment_sim = r.environment ∧
  (simulateA r 0 0 0).education_sim = r.education ∧
  (simulateA r 0 0 0).jobs_sim = r.jobs ∧
  (∀ d : Dim, dimensionSim r d 0 0 0 = r.get d) ∧
  policyFigure df dim 0 0 0 =
    .chart [df.map (fun r2 => (r2.get dim, r2.life_satisfaction))] ∧
  (simulateA r 0 0 0).life_satisfaction_sim =
    r.environment * 0.15 + r.education * 0.15 + r.jobs * 0.20 +
    r.safety * 0.10 + r.income * 0.10 + r.housing * 0.10 + r.health * 0.10 +
    r.work_life_balance * 0.05 + r.social_connections * 0.05 ∧
  (∀ (sdf : List SimRow) (c : String) (d : Dim) (row : SimRow),
    (sdf.filter (fun r2 => r2.country == c)).head? = some row →
    sdf.isEmpty = false →
    CorrDefined (sdf.map (fun r2 => r2.get .life_satisfaction))
      (sdf.map (fun r2 => r2.get d)) →
    simUpdateLogic sdf (some c) (some d) (some 0) =
      .result (row.get d) (row.get .life_satisfaction) (row.get d)
        (row.get .life_satisfaction))

/-- The conclusion of claim C7 on the narrative selections: the
strengths are (up to) the two greatest positive-gap entries (a prefix of
the positive entries of the descending-sorted list, dominating the
rest), the weaknesses are (up to) the two least negative-gap entries (a
suffix of the negative entries in encountered order, dominated by the
front), the worst dimension is a minimum-gap entry, and the top performer
attains the maximal `composite_index`. -/
def NarrativeSpec (gaps table : List (String × ℚ)) : Prop :=
  (narrativeSelect gaps).strengths.length ≤ 2 ∧
  (∀ p ∈ (narrativeSelect gaps).strengths, 0 < p.2) ∧
  (∃ rest, (sortGapsDesc gaps).filter (fun d => 0 < d.2) =
      (narrativeSelect gaps).strengths ++ rest ∧
    ∀ p ∈ (narrativeSelect gaps).strengths, ∀ q ∈ rest, q.2 ≤ p.2) ∧
  (narrativeSelect gaps).weaknesses.length ≤ 2 ∧
  (∀ p ∈ (narrativeSelect gaps).weaknesses, p.2 < 0) ∧
  (∃ front, (sortGapsDesc gaps).filter (fun d => d.2 < 0) =
      front ++ (narrativeSelect gaps).weaknesses ∧
    ∀ q ∈ front, ∀ p ∈ (narrativeSelect gaps).weaknesses, p.2 ≤ q.2) ∧
  (∃ w, (narrativeSelect gaps).worst_dimension = some w ∧ w ∈ gaps ∧
    ∀ p ∈ gaps, w.2 ≤ p.2) ∧
  (∃ t, topPerformer table = some t ∧ t ∈ table ∧ ∀ q ∈ table, q.2 ≤ t.2)

/-- Concrete row used by the witnesses below. -/
def testRow : PolicyRow := ⟨"Testland", 60, 50, 50, 50, 50, 50, 50, 50, 50, 50⟩

/-- Concrete mode (b) row used by the witnesses below. -/
def testSimRow : SimRow := ⟨"United States", fun _ => 50⟩

/-! ### Helper lemmas -/

theorem foldl_min_le_init (ys : List ℚ) (a : ℚ) : ys.foldl min a ≤ a := by
  induction ys generalizing a with
  | nil => simp
  | cons y ys ih =>
    simp only [List.foldl_cons]
    exact le_trans (ih (min a y)) (min_le_left a y)

theorem foldl_min_le_mem (ys : List ℚ) (a x : ℚ) (hx : x ∈ ys) :
    ys.foldl min a ≤ x := by
  induction ys generalizing a with
  | nil => cases hx
  | cons y ys ih =>
    simp only [List.foldl_cons]
    rcases List.mem_cons.1 hx with h | h
    · subst h
      exact le_trans (foldl_min_le_init ys (min a x)) (min_le_right a x)
    · exact ih (min a y) h

theorem init_le_foldl_max (ys : List ℚ) (a : ℚ) : a ≤ ys.foldl max a := by
  induction ys generalizing a with
  | nil => simp
  | cons y ys ih =>
    simp only [List.foldl_cons]
    exact le_trans (le_max_left a y) (ih (max a y))

theorem mem_le_foldl_max (ys : List ℚ) (a x : ℚ) (hx : x ∈ ys) :
    x ≤ ys.foldl max a := by
  induction ys generalizing a with
  | nil => cases hx
  | cons y ys ih =>
    simp only [List.foldl_cons]
    rcases List.mem_cons.1 hx with h | h
    · subst h
      exact le_trans (le_max_right a x) (init_le_foldl_max ys (max a x))
    · exact ih (max a y) h

theorem colMin_le (xs : List ℚ) (x : ℚ) (hx : x ∈ xs) : colMin xs ≤ x := by
  cases xs with
  | nil => cases hx
  | cons y ys =>
    rcases List.mem_cons.1 hx with h | h
    · subst h; exact foldl_min_le_init ys x
    · exact foldl_min_le_mem ys y x h

theorem le_colMax (xs : List ℚ) (x : ℚ) (hx : x ∈ xs) : x ≤ colMax xs := by
  cases xs with
  | nil => cases hx
  | cons y ys =>
    rcases List.mem_cons.1 hx with h | h
    · subst h; exact init_le_foldl_max ys x
    · exact mem_le_foldl_max ys y x h

theorem round_mono {a b : ℚ} (h : a ≤ b) : round a ≤ round b := by
  rw [round_eq, round_eq]
  exact Int.floor_le_floor (by linarith)

theorem round1_bounds {v : ℚ} (h0 : 0 ≤ v) (h100 : v ≤ 100) :
    0 ≤ round1 v ∧ round1 v ≤ 100 := by
  have hlo : (0 : ℤ) ≤ round (10 * v) := by
    have h := round_mono (by linarith : (0 : ℚ) ≤ 10 * v)
    simpa using h
  have hhi : round (10 * v) ≤ (1000 : ℤ) := by
    have h := round_mono (by linarith : 10 * v ≤ (1000 : ℚ))
    have h1000 : round ((1000 : ℚ)) = (1000 : ℤ) := by norm_num [round_eq]
    rwa [h1000] at h
  unfold round1
  constructor
  · have hc : (0 : ℚ) ≤ ((round (10 * v) : ℤ) : ℚ) := by exact_mod_cast hlo
    linarith
  · have hc : ((round (10 * v) : ℤ) : ℚ) ≤ 1000 := by exact_mod_cast hhi
    linarith

theorem countP_lt_add_countP_eq_le_length (xs : List ℚ) (x : ℚ) :
    xs.countP (fun y => y < x) + xs.countP (fun y => y = x) ≤ xs.length := by
  induction xs with
  | nil => simp
  | cons y ys ih =>
    by_cases hlt : y < x
    · have hne : ¬ (y = x) := by intro h; subst h; exact lt_irrefl _ hlt
      simp only [List.countP_cons, List.length_cons]
      simp [hlt, hne]
      omega
    · by_cases heq : y = x
      · simp only [List.countP_cons, List.length_cons]
        simp [hlt, heq]
        omega
      · simp only [List.countP_cons, List.length_cons]
        simp [hlt, heq]
        omega

theorem countP_eq_pos (xs : List ℚ) (x : ℚ) (hx : x ∈ xs) :
    1 ≤ xs.countP (fun y => y = x) := by
  have h : 0 < xs.countP (fun y => y = x) :=
    List.countP_pos_iff.2 ⟨x, hx, decide_eq_true rfl⟩
  omega

theorem rankPct_nonneg (xs : List ℚ) (x : ℚ) : 0 ≤ rankPct xs x := by
  unfold rankPct
  apply div_nonneg
  · positivity
  · positivity

theorem rankPct_le_one (xs : List ℚ) (x : ℚ) (hx : x ∈ xs) :
    rankPct xs x ≤ 1 := by
  unfold rankPct
  have hn : 0 < (xs.length : ℚ) := by
    have : 0 < xs.length := List.length_pos.2 (List.ne_nil_of_mem hx)
    exact_mod_cast this
  rw [div_le_one hn]
  have hsum := countP_lt_add_countP_eq_le_length xs x
  have heq := countP_eq_pos xs x hx
  have hsum' : (xs.countP (fun y => y < x) : ℚ) + (xs.countP (fun y => y = x) : ℚ)
      ≤ (xs.length : ℚ) := by exact_mod_cast hsum
  have heq' : (1 : ℚ) ≤ (xs.countP (fun y => y = x) : ℚ) := by exact_mod_cast heq
  linarith

theorem one_div_length_le_rankPct (xs : List ℚ) (x : ℚ) (hx : x ∈ xs) :
    1 / (xs.length : ℚ) ≤ rankPct xs x := by
  unfold rankPct
  have hn : 0 < (xs.length : ℚ) := by
    have : 0 < xs.length := List.length_pos.2 (List.ne_nil_of_mem hx)
    exact_mod_cast this
  have heq' : (1 : ℚ) ≤ (xs.countP (fun y => y = x) : ℚ) := by
    exact_mod_cast countP_eq_pos xs x hx
  have hlt' : (0 : ℚ) ≤ (xs.countP (fun y => y < x) : ℚ) := by positivity
  gcongr
  linarith

theorem normalizeColumn_mem_bounds (invert : Bool) (xs : List ℚ) (v : ℚ)
    (hv : v ∈ normalizeColumn invert xs) : 0 ≤ v ∧ v ≤ 100 := by
  cases invert with
  | true =>
    simp only [normalizeColumn, if_true] at hv
    obtain ⟨x, hx, rfl⟩ := List.mem_map.1 hv
    have h1 := rankPct_nonneg xs x
    have h2 := rankPct_le_one xs x hx
    constructor
    · linarith
    · linarith
  | false =>
    simp only [normalizeColumn, Bool.false_eq_true, if_false] at hv
    by_cases hc : colMin xs < colMax xs
    · rw [if_pos hc] at hv
      obtain ⟨x, hx, rfl⟩ := List.mem_map.1 hv
      have hmin := colMin_le xs x hx
      have hmax := le_colMax xs x hx
      have hd : (0 : ℚ) < colMax xs - colMin xs := by linarith
      have hq1 : (x - colMin xs) / (colMax xs - colMin xs) ≤ 1 := by
        rw [div_le_one hd]; linarith
      have hq0 : 0 ≤ (x - colMin xs) / (colMax xs - colMin xs) :=
        div_nonneg (by linarith) (le_of_lt hd)
      constructor
      · linarith
      · linarith
    · rw [if_neg hc] at hv
      obtain ⟨x, hx, rfl⟩ := List.mem_map.1 hv
      norm_num

theorem roundNorm_mem_bounds (invert : Bool) (xs : List ℚ) (v : ℚ)
    (hv : v ∈ roundCol (normalizeColumn invert xs)) : 0 ≤ v ∧ v ≤ 100 := by
  obtain ⟨w, hw, rfl⟩ := List.mem_map.1 hv
  have h := normalizeColumn_mem_bounds invert xs w hw
  exact round1_bounds h.1 h.2

theorem compositeIndex_bounds (vals : List ℚ) (hne : vals ≠ [])
    (hb : ∀ v ∈ vals, 0 ≤ v ∧ v ≤ 100) :
    0 ≤ compositeIndex vals ∧ compositeIndex vals ≤ 100 := by
  have hn : 0 < (vals.length : ℚ) := by
    have h := List.length_pos.2 hne
    exact_mod_cast h
  have hs0 : 0 ≤ vals.sum := List.sum_nonneg (fun x hx => (hb x hx).1)
  have hs1 : vals.sum ≤ vals.length • (100 : ℚ) :=
    List.sum_le_card_nsmul vals 100 (fun x hx => (hb x hx).2)
  rw [nsmul_eq_mul] at hs1
  have hmean0 : 0 ≤ vals.sum / (vals.length : ℚ) := div_nonneg hs0 (le_of_lt hn)
  have hmean1 : vals.sum / (vals.length : ℚ) ≤ 100 := by
    rw [div_le_iff₀ hn]; linarith
  exact round1_bounds hmean0 hmean1

/-- C1: After the transform step, every normalized-then-rounded dimension
value lies in [0,100]; the mean of values in [0,100], rounded
(`composite_index`), lies in [0,100]; and for a country assembled from
the normalized columns at a common row index, its `composite_index` lies
in [0,100]. -/
theorem transform_step_bounds :
    (∀ (invert : Bool) (xs : List ℚ), ∀ v ∈ roundCol (normalizeColumn invert xs),
        0 ≤ v ∧ v ≤ 100) ∧
    (∀ vals : List ℚ, vals ≠ [] → (∀ v ∈ vals, 0 ≤ v ∧ v ≤ 100) →
        0 ≤ compositeIndex vals ∧ compositeIndex vals ≤ 100) ∧
    (∀ (cols : List (Bool × List ℚ)) (i : ℕ), cols ≠ [] →
        (∀ c ∈ cols, i < (roundCol (normalizeColumn c.1 c.2)).length) →
        0 ≤ compositeIndex (cols.map fun c => (roundCol (normalizeColumn c.1 c.2)).getD i 0) ∧
          compositeIndex (cols.map fun c => (roundCol (normalizeColumn c.1 c.2)).getD i 0) ≤ 100) := by
  refine ⟨fun invert xs v hv => roundNorm_mem_bounds invert xs v hv,
    fun vals hne hb => compositeIndex_bounds vals hne hb, fun cols i hne hlen => ?_⟩
  apply compositeIndex_bounds
  · simp only [ne_eq, List.map_eq_nil_iff]
    exact hne
  · intro v hv
    obtain ⟨c, hc, rfl⟩ := List.mem_map.1 hv
    have hi := hlen c hc
    rw [List.getD_eq_getElem _ 0 hi]
    exact roundNorm_mem_bounds c.1 c.2 _ (List.getElem_mem hi)

/-- Witness for C1 at concrete inputs. -/
theorem transform_step_bounds_witness :
    ((50 : ℚ) ∈ roundCol (normalizeColumn true [1, 2]) ∧ 0 ≤ (50 : ℚ) ∧ (50 : ℚ) ≤ 100) ∧
    (([50, 60] : List ℚ) ≠ [] ∧ (∀ v ∈ ([50, 60] : List ℚ), 0 ≤ v ∧ v ≤ 100) ∧
      0 ≤ compositeIndex [50, 60] ∧ compositeIndex [50, 60] ≤ 100) ∧
    (([(true, [1, 2]), (false, [1, 2])] : List (Bool × List ℚ)) ≠ [] ∧
      (∀ c ∈ ([(true, [1, 2]), (false, [1, 2])] : List (Bool × List ℚ)),
          0 < (roundCol (normalizeColumn c.1 c.2)).length) ∧
      0 ≤ compositeIndex (([(true, [1, 2]), (false, [1, 2])] : List (Bool × List ℚ)).map
            fun c => (roundCol (normalizeColumn c.1 c.2)).getD 0 0) ∧
        compositeIndex (([(true, [1, 2]), (false, [1, 2])] : List (Bool × List ℚ)).map
            fun c => (roundCol (normalizeColumn c.1 c.2)).getD 0 0) ≤ 100) :=
  ⟨⟨by norm_num [roundCol, normalizeColumn, rankPct, round1, List.countP_cons,
      List.countP_nil, round_eq],
    transform_step_bounds.1 true [1, 2] 50
      (by norm_num [roundCol, normalizeColumn, rankPct, round1, List.countP_cons,
        List.countP_nil, round_eq])⟩,
   ⟨by decide, by decide,
    transform_step_bounds.2.1 [50, 60] (by decide) (by decide)⟩,
   ⟨by decide, by decide,
    transform_step_bounds.2.2 [(true, [1, 2]), (false, [1, 2])] 0 (by decide) (by decide)⟩⟩

/-! ## C2 / C3: inverted-dimension normalization -/

theorem round1_mono {a b : ℚ} (h : a ≤ b) : round1 a ≤ round1 b := by
  unfold round1
  have hr := round_mono (by linarith : 10 * a ≤ 10 * b)
  have hc : ((round (10 * a) : ℤ) : ℚ) ≤ ((round (10 * b) : ℤ) : ℚ) := by
    exact_mod_cast hr
  linarith

theorem countP_lt_self_eq_zero (xs : List ℚ) (x : ℚ)
    (hmin : ∀ y ∈ xs, y ≠ x → x < y) : xs.countP (fun y => y < x) = 0 := by
  apply List.countP_eq_zero.2
  intro a ha hlt
  have hlt' : a < x := of_decide_eq_true hlt
  have hne : a ≠ x := ne_of_lt hlt'
  exact absurd (hmin a ha hne) (not_lt.2 (le_of_lt hlt'))

/-- C2 counterexample: in the column `[1/2, 1, 2]` of an inverted
dimension, `1/2` is the lowest raw value, yet the transform gives it a
normalized value of `66.7`, not `100`. -/
theorem inverted_lowest_not_100_counterexample :
    ((1 : ℚ)/2) ∈ [(1 : ℚ)/2, 1, 2] ∧ (∀ y ∈ [(1 : ℚ)/2, 1, 2], (1 : ℚ)/2 ≤ y) ∧
    roundCol (normalizeColumn true [(1 : ℚ)/2, 1, 2]) = [667/10, 333/10, 0] ∧
    (667/10 : ℚ) ≠ 100 := by
  refine ⟨by norm_num, by norm_num, ?_, by norm_num⟩
  norm_num [roundCol, normalizeColumn, rankPct, round1, List.countP_cons,
    List.countP_nil, round_eq]

/-- C2 (amended): for an inverted dimension, the country with the unique
lowest raw value `x` in the column `xs` receives the maximal normalized
value of the column, namely `round1 ((1 - 1/n) * 100)` for `n` countries —
which is strictly below 100 (for any realistic `n < 2000`), not 100. -/
theorem inverted_lowest_gets_max (xs : List ℚ) (x : ℚ) (hx : x ∈ xs)
    (hmin : ∀ y ∈ xs, y ≠ x → x < y)
    (hone : xs.countP (fun y => y = x) = 1) :
    roundCol (normalizeColumn true xs) = xs.map (invNorm xs) ∧
    invNorm xs x = round1 ((1 - 1 / (xs.length : ℚ)) * 100) ∧
    (∀ y ∈ xs, invNorm xs y ≤ invNorm xs x) ∧
    (xs.length < 2000 → invNorm xs x < 100) := by
  have hn : 0 < (xs.length : ℚ) := by
    have h := List.length_pos.2 (List.ne_nil_of_mem hx)
    exact_mod_cast h
  have hlt0 : xs.countP (fun y => y < x) = 0 := countP_lt_self_eq_zero xs x hmin
  have hpct : rankPct xs x = 1 / (xs.length : ℚ) := by
    unfold rankPct
    rw [hlt0, hone]
    norm_num
  refine ⟨?_, ?_, ?_, ?_⟩
  · simp only [roundCol, normalizeColumn, if_true, List.map_map]
    rfl
  · unfold invNorm
    rw [hpct]
  · intro y hy
    unfold invNorm
    apply round1_mono
    have h1 := one_div_length_le_rankPct xs y hy
    rw [hpct]
    linarith
  · intro hlen
    unfold invNorm
    rw [hpct]
    unfold round1
    have hlen' : (xs.length : ℚ) < 2000 := by exact_mod_cast hlen
    have harg : 10 * ((1 - 1 / (xs.length : ℚ)) * 100) + 1/2 < 1000 := by
      have hd : 1/2 < 1000 / (xs.length : ℚ) := by
        rw [lt_div_iff₀ hn]
        linarith
      have he : 10 * ((1 - 1 / (xs.length : ℚ)) * 100) = 1000 - 1000 / (xs.length : ℚ) := by
        field_simp
        ring
      rw [he]
      linarith
    have hflt : round (10 * ((1 - 1 / (xs.length : ℚ)) * 100)) < 1000 := by
      rw [round_eq]
      exact Int.floor_lt.2 (by exact_mod_cast harg)
    have hflt' : ((round (10 * ((1 - 1 / (xs.length : ℚ)) * 100)) : ℤ) : ℚ) ≤ 999 := by
      have h : round (10 * ((1 - 1 / (xs.length : ℚ)) * 100)) ≤ 999 := by omega
      exact_mod_cast h
    linarith

/-- Witness for the amended C2 at the concrete column `[1/2, 1, 2]`. -/
theorem inverted_lowest_gets_max_witness :
    (((1 : ℚ)/2) ∈ [(1 : ℚ)/2, 1, 2] ∧
      (∀ y ∈ [(1 : ℚ)/2, 1, 2], y ≠ (1 : ℚ)/2 → (1 : ℚ)/2 < y) ∧
      ([(1 : ℚ)/2, 1, 2].countP (fun y => y = (1 : ℚ)/2) = 1)) ∧
    (roundCol (normalizeColumn true [(1 : ℚ)/2, 1, 2]) =
        [(1 : ℚ)/2, 1, 2].map (invNorm [(1 : ℚ)/2, 1, 2]) ∧
      invNorm [(1 : ℚ)/2, 1, 2] ((1 : ℚ)/2) =
        round1 ((1 - 1 / (([(1 : ℚ)/2, 1, 2] : List ℚ).length : ℚ)) * 100) ∧
      (∀ y ∈ [(1 : ℚ)/2, 1, 2],
        invNorm [(1 : ℚ)/2, 1, 2] y ≤ invNorm [(1 : ℚ)/2, 1, 2] ((1 : ℚ)/2)) ∧
      (([(1 : ℚ)/2, 1, 2] : List ℚ).length < 2000 →
        invNorm [(1 : ℚ)/2, 1, 2] ((1 : ℚ)/2) < 100)) :=
  ⟨⟨by norm_num, by norm_num, by norm_num [List.countP_cons, List.countP_nil]⟩,
   inverted_lowest_gets_max [(1 : ℚ)/2, 1, 2] ((1 : ℚ)/2) (by norm_num)
     (by norm_num) (by norm_num [List.countP_cons, List.countP_nil])⟩

theorem foldl_min_const (n : ℕ) (x0 : ℚ) :
    (List.replicate n x0).foldl min x0 = x0 := by
  induction n with
  | zero => simp
  | succ n ih => simpa [List.replicate_succ, min_self] using ih

theorem foldl_max_const (n : ℕ) (x0 : ℚ) :
    (List.replicate n x0).foldl max x0 = x0 := by
  induction n with
  | zero => simp
  | succ n ih => simpa [List.replicate_succ, max_self] using ih

theorem colMin_const (xs : List ℚ) (x0 : ℚ) (hne : xs ≠ [])
    (hconst : ∀ y ∈ xs, y = x0) : colMin xs = x0 := by
  cases xs with
  | nil => exact absurd rfl hne
  | cons y ys =>
    have hy : y = x0 := hconst y (List.mem_cons_self y ys)
    have hys : ys = List.replicate ys.length x0 :=
      List.eq_replicate_of_mem (fun b hb => hconst b (List.mem_cons_of_mem y hb))
    subst hy
    rw [colMin, hys]
    exact foldl_min_const ys.length y

theorem colMax_const (xs : List ℚ) (x0 : ℚ) (hne : xs ≠ [])
    (hconst : ∀ y ∈ xs, y = x0) : colMax xs = x0 := by
  cases xs with
  | nil => exact absurd rfl hne
  | cons y ys =>
    have hy : y = x0 := hconst y (List.mem_cons_self y ys)
    have hys : ys = List.replicate ys.length x0 :=
      List.eq_replicate_of_mem (fun b hb => hconst b (List.mem_cons_of_mem y hb))
    subst hy
    rw [colMax, hys]
    exact foldl_max_const ys.length y

/-- C3 counterexample: an inverted dimension whose raw column is the
constant `[5, 5]` is normalized to `[25, 25]`, not `[50, 50]`: the
degenerate-column 50.0 rule only exists in the min-max (non-inverted)
branch of the normalization loop. -/
theorem inverted_constant_not_50_counterexample :
    roundCol (normalizeColumn true [(5 : ℚ), 5]) = [25, 25] ∧
    roundCol (normalizeColumn true [(5 : ℚ), 5]) ≠ [50, 50] := by
  have h : roundCol (normalizeColumn true [(5 : ℚ), 5]) = [25, 25] := by
    norm_num [roundCol, normalizeColumn, rankPct, round1, List.countP_cons,
      List.countP_nil, round_eq]
  refine ⟨h, ?_⟩
  rw [h]
  intro hcontra
  have h25 : (25 : ℚ) = 50 := by
    have := List.head_eq_of_cons_eq hcontra
    exact this
  norm_num at h25

/-- C3 (amended): for a constant raw column, every country's normalized
value is 50.0 for NON-inverted dimensions; for inverted dimensions the
percentile-rank formula applies unchanged and every country instead
receives `round1 (((n-1)/(2n)) * 100)` for `n` countries (45.0 for
n = 10, 25.0 for n = 2), which is strictly below 50.0 whenever
n < 1000 — the dataset has at most a few hundred rows — and rounds to
exactly 50.0 only from n = 1000 on. -/
theorem constant_column_values (xs : List ℚ) (x0 : ℚ) (hne : xs ≠ [])
    (hconst : ∀ y ∈ xs, y = x0) :
    roundCol (normalizeColumn false xs) = xs.map (fun _ => 50) ∧
    roundCol (normalizeColumn true xs) =
      xs.map (fun _ => round1 ((((xs.length : ℚ) - 1) / (2 * (xs.length : ℚ))) * 100)) ∧
    (xs.length < 1000 →
      round1 ((((xs.length : ℚ) - 1) / (2 * (xs.length : ℚ))) * 100) < 50) := by
  have hn : 0 < (xs.length : ℚ) := by
    have h := List.length_pos.2 hne
    exact_mod_cast h
  refine ⟨?_, ?_, ?_⟩
  · have hmin := colMin_const xs x0 hne hconst
    have hmax := colMax_const xs x0 hne hconst
    have hnot : ¬ colMin xs < colMax xs := by rw [hmin, hmax]; exact lt_irrefl x0
    simp only [normalizeColumn, Bool.false_eq_true, if_false, if_neg hnot, roundCol,
      List.map_map]
    apply List.map_congr_left
    intro a _
    show round1 50 = 50
    norm_num [round1, round_eq]
  · simp only [normalizeColumn, if_true, roundCol, List.map_map]
    apply List.map_congr_left
    intro a ha
    show round1 ((1 - rankPct xs a) * 100) = _
    have ha0 : a = x0 := hconst a ha
    subst ha0
    have hlt : xs.countP (fun y => y < a) = 0 := by
      apply List.countP_eq_zero.2
      intro b hb hblt
      have hb0 : b = a := hconst b hb
      subst hb0
      exact absurd (of_decide_eq_true hblt) (lt_irrefl b)
    have heq : xs.countP (fun y => y = a) = xs.length := by
      apply List.countP_eq_length.2
      intro b hb
      exact decide_eq_true (hconst b hb)
    have hpct : rankPct xs a = ((xs.length : ℚ) + 1) / (2 * (xs.length : ℚ)) := by
      unfold rankPct
      rw [hlt, heq]
      push_cast
      field_simp
    rw [hpct]
    congr 1
    field_simp
    ring
  · intro hlen
    have hlen' : (xs.length : ℚ) < 1000 := by exact_mod_cast hlen
    unfold round1
    have harg : 10 * ((((xs.length : ℚ) - 1) / (2 * (xs.length : ℚ))) * 100) + 1/2 < 500 := by
      have hd : 1/2 < 500 / (xs.length : ℚ) := by
        rw [lt_div_iff₀ hn]
        linarith
      have he : 10 * ((((xs.length : ℚ) - 1) / (2 * (xs.length : ℚ))) * 100)
          = 500 - 500 / (xs.length : ℚ) := by
        field_simp
        ring
      rw [he]
      linarith
    have hflt : round (10 * ((((xs.length : ℚ) - 1) / (2 * (xs.length : ℚ))) * 100)) < 500 := by
      rw [round_eq]
      exact Int.floor_lt.2 (by exact_mod_cast harg)
    have hflt' : ((round (10 * ((((xs.length : ℚ) - 1) / (2 * (xs.length : ℚ))) * 100)) : ℤ) : ℚ)
        ≤ 499 := by
      have h : round (10 * ((((xs.length : ℚ) - 1) / (2 * (xs.length : ℚ))) * 100)) ≤ 499 := by
        omega
      exact_mod_cast h
    linarith

/-- Witness for the amended C3 at the constant column `[5, 5]`. -/
theorem constant_column_values_witness :
    (([(5 : ℚ), 5] : List ℚ) ≠ [] ∧ (∀ y ∈ [(5 : ℚ), 5], y = (5 : ℚ))) ∧
    (roundCol (normalizeColumn false [(5 : ℚ), 5]) = [(5 : ℚ), 5].map (fun _ => 50) ∧
      roundCol (normalizeColumn true [(5 : ℚ), 5]) =
        [(5 : ℚ), 5].map (fun _ =>
          round1 ((((([(5 : ℚ), 5] : List ℚ).length : ℚ) - 1) /
            (2 * (([(5 : ℚ), 5] : List ℚ).length : ℚ))) * 100)) ∧
      (([(5 : ℚ), 5] : List ℚ).length < 1000 →
        round1 ((((([(5 : ℚ), 5] : List ℚ).length : ℚ) - 1) /
          (2 * (([(5 : ℚ), 5] : List ℚ).length : ℚ))) * 100) < 50)) :=
  ⟨⟨by simp, by norm_num⟩,
   constant_column_values [(5 : ℚ), 5] 5 (by simp) (by norm_num)⟩

/-! ## C4 / C9: mode (a) simulation -/

/-- C4: in mode (a), each boosted dimension's simulated value equals
`min(100, raw * (1 + boost/100))` (hence never exceeds 100), non-boosted
dimensions pass through unchanged, and the simulated life-satisfaction
proxy is the fixed weighted sum over the 9 dimensions with the source's
weights. -/
theorem modeA_formulas (r : PolicyRow) (eb edb jb : ℚ)
    (_heb : 0 ≤ eb) (_hedb : 0 ≤ edb) (_hjb : 0 ≤ jb) :
    ModeASpec r eb edb jb := by
  refine ⟨min_comm _ _, min_comm _ _, min_comm _ _, min_le_right _ _,
    min_le_right _ _, min_le_right _ _, ?_, rfl⟩
  intro d h1 h2 h3
  cases d <;>
    first
      | rfl
      | (exact absurd rfl h1)
      | (exact absurd rfl h2)
      | (exact absurd rfl h3)

/-- Witness for C4 at a concrete row and boosts (including a boost of
300% to exercise the cap). -/
theorem modeA_formulas_witness :
    (0 ≤ (10 : ℚ) ∧ 0 ≤ (0 : ℚ) ∧ 0 ≤ (300 : ℚ)) ∧
    ModeASpec ⟨"Testland", 60, 50, 50, 50, 50, 50, 50, 50, 50, 50⟩ 10 0 300 :=
  ⟨⟨by norm_num, le_refl 0, by norm_num⟩,
   modeA_formulas ⟨"Testland", 60, 50, 50, 50, 50, 50, 50, 50, 50, 50⟩ 10 0 300
     (by norm_num) (le_refl 0) (by norm_num)⟩

/-- C9 (implicit): in mode (a), for a base row whose nine summed
dimension values lie in [0,100] and nonnegative boosts, the simulated
life-satisfaction proxy lies in [0,100] (the weights sum to 1 and every
summand is capped). -/
theorem modeA_lifesat_in_range (r : PolicyRow) (eb edb jb : ℚ)
    (hr : InRange9 r) (heb : 0 ≤ eb) (hedb : 0 ≤ edb) (hjb : 0 ≤ jb) :
    0 ≤ (simulateA r eb edb jb).life_satisfaction_sim ∧
    (simulateA r eb edb jb).life_satisfaction_sim ≤ 100 := by
  obtain ⟨⟨hh0, hh1⟩, ⟨hi0, hi1⟩, ⟨hed0, hed1⟩, ⟨hj0, hj1⟩, ⟨hw0, hw1⟩,
    ⟨hs0, hs1⟩, ⟨he0, he1⟩, ⟨hsc0, hsc1⟩, ⟨hho0, hho1⟩⟩ := hr
  have henv0 : 0 ≤ (simulateA r eb edb jb).environment_sim := by
    show 0 ≤ min (r.environment * (1 + eb / 100)) 100
    exact le_min (mul_nonneg he0 (by linarith)) (by norm_num)
  have hedu0 : 0 ≤ (simulateA r eb edb jb).education_sim := by
    show 0 ≤ min (r.education * (1 + edb / 100)) 100
    exact le_min (mul_nonneg hed0 (by linarith)) (by norm_num)
  have hjob0 : 0 ≤ (simulateA r eb edb jb).jobs_sim := by
    show 0 ≤ min (r.jobs * (1 + jb / 100)) 100
    exact le_min (mul_nonneg hj0 (by linarith)) (by norm_num)
  have henv1 : (simulateA r eb edb jb).environment_sim ≤ 100 := min_le_right _ _
  have hedu1 : (simulateA r eb edb jb).education_sim ≤ 100 := min_le_right _ _
  have hjob1 : (simulateA r eb edb jb).jobs_sim ≤ 100 := min_le_right _ _
  have hls : (simulateA r eb edb jb).life_satisfaction_sim =
      (simulateA r eb edb jb).environment_sim * 0.15 +
      (simulateA r eb edb jb).education_sim * 0.15 +
      (simulateA r eb edb jb).jobs_sim * 0.20 +
      r.safety * 0.10 + r.income * 0.10 + r.housing * 0.10 + r.health * 0.10 +
      r.work_life_balance * 0.05 + r.social_connections * 0.05 := rfl
  rw [hls]
  constructor
  · nlinarith
  · nlinarith

/-- Witness for C9 at a concrete in-range row with boosts (10, 10, 10). -/
theorem modeA_lifesat_in_range_witness :
    (InRange9 ⟨"Testland", 60, 50, 50, 50, 50, 50, 50, 50, 50, 50⟩ ∧
      0 ≤ (10 : ℚ)) ∧
    0 ≤ (simulateA ⟨"Testland", 60, 50, 50, 50, 50, 50, 50, 50, 50, 50⟩ 10 10 10).life_satisfaction_sim ∧
    (simulateA ⟨"Testland", 60, 50, 50, 50, 50, 50, 50, 50, 50, 50⟩ 10 10 10).life_satisfaction_sim ≤ 100 :=
  ⟨⟨by constructor <;> norm_num [InRange9], by norm_num⟩,
   modeA_lifesat_in_range ⟨"Testland", 60, 50, 50, 50, 50, 50, 50, 50, 50, 50⟩ 10 10 10
     (by constructor <;> norm_num [InRange9]) (by norm_num) (by norm_num) (by norm_num)⟩

/-! ## C5 / C6: simulator no-change and mode (b) formulas -/

/-- C5 counterexample: with all boosts zero, the mode (a) simulated
life-satisfaction proxy of a base row with `life_satisfaction = 80` and
all nine other dimensions 50 is the weighted sum 50, not 80 — so not
every value the simulator computes equals the base record's value. -/
theorem simulator_no_change_counterexample :
    (simulateA ⟨"X", 80, 50, 50, 50, 50, 50, 50, 50, 50, 50⟩ 0 0 0).life_satisfaction_sim = 50 ∧
    (⟨"X", 80, 50, 50, 50, 50, 50, 50, 50, 50, 50⟩ : PolicyRow).life_satisfaction = 80 ∧
    (50 : ℚ) ≠ 80 := by
  refine ⟨?_, rfl, by norm_num⟩
  norm_num [simulateA, min_def]

/-- C5 (amended): with all mode (a) boosts zero, every simulated
dimension column and the emitted figure equal the base values (given the
post-transform guarantee that the boosted columns are ≤ 100), and with a
zero mode (b) improvement both outputs equal the base exactly whenever
the Pearson correlation of the two columns is well-defined (`CorrDefined`;
on a degenerate filtered table pandas gives NaN instead); but the
internally computed `life_satisfaction_sim` equals the weighted sum of
the base dimensions, which in general differs from the base
`life_satisfaction` and is simply not plotted when no boost is
positive. -/
theorem zero_inputs_base_values (r : PolicyRow) (dim : Dim) (df : List PolicyRow)
    (h1 : r.environment ≤ 100) (h2 : r.education ≤ 100) (h3 : r.jobs ≤ 100)
    (hdf : df ≠ []) : ZeroBoostSpec r dim df := by
  have henv : (simulateA r 0 0 0).environment_sim = r.environment := by
    show min (r.environment * (1 + 0 / 100)) 100 = r.environment
    rw [show ((1 : ℚ) + 0 / 100) = 1 by norm_num, mul_one]
    exact min_eq_left h1
  have hedu : (simulateA r 0 0 0).education_sim = r.education := by
    show min (r.education * (1 + 0 / 100)) 100 = r.education
    rw [show ((1 : ℚ) + 0 / 100) = 1 by norm_num, mul_one]
    exact min_eq_left h2
  have hjob : (simulateA r 0 0 0).jobs_sim = r.jobs := by
    show min (r.jobs * (1 + 0 / 100)) 100 = r.jobs
    rw [show ((1 : ℚ) + 0 / 100) = 1 by norm_num, mul_one]
    exact min_eq_left h3
  refine ⟨henv, hedu, hjob, ?_, ?_, ?_, ?_⟩
  · intro d
    cases d
    case environment => exact henv
    case education => exact hedu
    case jobs => exact hjob
    all_goals rfl
  · unfold policyFigure
    rw [if_neg (by simp [List.isEmpty_iff, hdf])]
    rw [if_neg (by norm_num)]
    simp
  · have hls : (simulateA r 0 0 0).life_satisfaction_sim =
        (simulateA r 0 0 0).environment_sim * 0.15 +
        (simulateA r 0 0 0).education_sim * 0.15 +
        (simulateA r 0 0 0).jobs_sim * 0.20 +
        r.safety * 0.10 + r.income * 0.10 + r.housing * 0.10 + r.health * 0.10 +
        r.work_life_balance * 0.05 + r.social_connections * 0.05 := rfl
    rw [hls, henv, hedu, hjob]
  · intro sdf c d row hrow hempty _hcorr
    unfold simUpdateLogic
    rw [if_neg (by simp [hempty])]
    simp only [hrow, Option.getD_some]
    norm_num

/-- Witness for the amended C5 at a concrete row and table. -/
theorem zero_inputs_base_values_witness :
    (testRow.environment ≤ 100 ∧ testRow.education ≤ 100 ∧ testRow.jobs ≤ 100 ∧
      ([testRow] : List PolicyRow) ≠ []) ∧
    ZeroBoostSpec testRow .income [testRow] :=
  ⟨⟨by norm_num [testRow], by norm_num [testRow], by norm_num [testRow], by simp⟩,
   zero_inputs_base_values testRow .income [testRow] (by norm_num [testRow])
     (by norm_num [testRow]) (by norm_num [testRow]) (by simp)⟩

/-- C6: in mode (b), the simulated dimension value is exactly
`raw + improvement_points` — no cap at 100 and no re-clamping — and the
simulated life satisfaction is
`current + improvement_points * corr(life_satisfaction, d) * 0.3` with
`corr` the Pearson correlation over the full filtered table. -/
theorem modeB_formulas (df : List SimRow) (c : String) (d : Dim) (i : ℝ)
    (row : SimRow) (hempty : df.isEmpty = false)
    (hrow : (df.filter (fun r => r.country == c)).head? = some row) :
    simUpdateLogic df (some c) (some d) (some i) =
      .result (row.get d) (row.get .life_satisfaction) (row.get d + i)
        (row.get .life_satisfaction +
          i * pearsonCorr (df.map (fun r => r.get .life_satisfaction))
                (df.map (fun r => r.get d)) * 0.3) := by
  unfold simUpdateLogic
  rw [if_neg (by simp [hempty])]
  simp only [hrow, Option.getD_some]

/-- Witness for C6 at a concrete one-row table with improvement 7. -/
theorem modeB_formulas_witness :
    (([testSimRow] : List SimRow).isEmpty = false ∧
      (([testSimRow] : List SimRow).filter
          (fun r => r.country == "United States")).head? = some testSimRow) ∧
    simUpdateLogic [testSimRow] (some "United States") (some .income) (some 7) =
      .result (testSimRow.get .income) (testSimRow.get .life_satisfaction)
        (testSimRow.get .income + 7)
        (testSimRow.get .life_satisfaction +
          7 * pearsonCorr ([testSimRow].map (fun r => r.get .life_satisfaction))
                ([testSimRow].map (fun r => r.get .income)) * 0.3) :=
  ⟨⟨rfl, rfl⟩,
   modeB_formulas [testSimRow] "United States" .income 7 testSimRow rfl rfl⟩

/-! ## C7: narrative selection -/

theorem sortGapsDesc_sorted (gaps : List (String × ℚ)) :
    List.Sorted (fun a b : String × ℚ => b.2 ≤ a.2) (sortGapsDesc gaps) := by
  haveI : IsTotal (String × ℚ) (fun a b => b.2 ≤ a.2) :=
    ⟨fun a b => le_total b.2 a.2⟩
  haveI : IsTrans (String × ℚ) (fun a b => b.2 ≤ a.2) :=
    ⟨fun a b c hab hbc => le_trans hbc hab⟩
  exact List.sorted_insertionSort _ gaps

theorem sortGapsDesc_perm (gaps : List (String × ℚ)) :
    List.Perm (sortGapsDesc gaps) gaps :=
  List.perm_insertionSort _ gaps

theorem sorted_getLast_min (l : List (String × ℚ))
    (hl : List.Sorted (fun a b : String × ℚ => b.2 ≤ a.2) l) (hne : l ≠ []) :
    ∃ w, l.getLast? = some w ∧ w ∈ l ∧ ∀ p ∈ l, w.2 ≤ p.2 := by
  induction l with
  | nil => exact absurd rfl hne
  | cons a l ih =>
    cases l with
    | nil =>
      refine ⟨a, rfl, List.mem_singleton_self a, ?_⟩
      intro p hp
      rw [List.mem_singleton] at hp
      subst hp
      exact le_refl _
    | cons b l2 =>
      obtain ⟨w, hw1, hw2, hw3⟩ := ih (List.sorted_cons.1 hl).2 (by simp)
      refine ⟨w, ?_, List.mem_cons_of_mem a hw2, ?_⟩
      · rw [List.getLast?_cons_cons]
        exact hw1
      · intro p hp
        rcases List.mem_cons.1 hp with h | h
        · subst h
          exact (List.sorted_cons.1 hl).1 w hw2
        · exact hw3 p h

theorem sorted_head_max (l : List (String × ℚ))
    (hl : List.Sorted (fun a b : String × ℚ => b.2 ≤ a.2) l) (hne : l ≠ []) :
    ∃ t, l.head? = some t ∧ t ∈ l ∧ ∀ q ∈ l, q.2 ≤ t.2 := by
  cases l with
  | nil => exact absurd rfl hne
  | cons a l =>
    refine ⟨a, rfl, List.mem_cons_self a l, ?_⟩
    intro q hq
    rcases List.mem_cons.1 hq with h | h
    · subst h
      exact le_refl _
    · exact (List.sorted_cons.1 hl).1 q h

theorem pairwise_take_drop (l : List (String × ℚ)) (k : ℕ)
    (hl : l.Pairwise (fun a b : String × ℚ => b.2 ≤ a.2)) :
    ∀ x ∈ l.take k, ∀ y ∈ l.drop k, y.2 ≤ x.2 := by
  have hsplit : (l.take k ++ l.drop k).Pairwise (fun a b : String × ℚ => b.2 ≤ a.2) := by
    rw [List.take_append_drop]
    exact hl
  exact (List.pairwise_append.1 hsplit).2.2

/-- C7: the narrative generator selects the (up to) two highest
positive-gap entries as strengths, the (up to) two most negative entries
from the tail of the descending-sorted list (in encountered order) as
weaknesses, the last element of the sorted list (a minimum-gap entry) as
the weakest dimension, and a country attaining the maximum
`composite_index` as the top performer. -/
theorem narrative_selection (gaps table : List (String × ℚ))
    (hg : gaps ≠ []) (ht : table ≠ []) : NarrativeSpec gaps table := by
  have hsorted := sortGapsDesc_sorted gaps
  have hperm := sortGapsDesc_perm gaps
  unfold NarrativeSpec
  simp only [narrativeSelect]
  refine ⟨?_, ?_, ?_, ?_, ?_, ?_, ?_, ?_⟩
  · simp
  · intro p hp
    have hpa := (List.mem_filter.1 (List.mem_of_mem_take hp)).2
    simpa using hpa
  · exact ⟨((sortGapsDesc gaps).filter (fun d => 0 < d.2)).drop 2,
      (List.take_append_drop 2 _).symm,
      pairwise_take_drop _ 2 (hsorted.filter _)⟩
  · rw [List.length_drop]
    omega
  · intro p hp
    have hpa := (List.mem_filter.1 (List.mem_of_mem_drop hp)).2
    simpa using hpa
  · exact ⟨((sortGapsDesc gaps).filter (fun d => d.2 < 0)).take
        (((sortGapsDesc gaps).filter (fun d => d.2 < 0)).length - 2),
      (List.take_append_drop _ _).symm,
      pairwise_take_drop _ _ (hsorted.filter _)⟩
  · have hsne : sortGapsDesc gaps ≠ [] := by
      intro h
      rw [h] at hperm
      exact hg hperm.symm.eq_nil
    obtain ⟨w, hw1, hw2, hw3⟩ := sorted_getLast_min _ hsorted hsne
    exact ⟨w, hw1, hperm.mem_iff.1 hw2, fun p hp => hw3 p (hperm.mem_iff.2 hp)⟩
  · have hpermT := sortGapsDesc_perm table
    have htne : sortGapsDesc table ≠ [] := by
      intro h
      rw [h] at hpermT
      exact ht hpermT.symm.eq_nil
    obtain ⟨t, ht1, ht2, ht3⟩ := sorted_head_max _ (sortGapsDesc_sorted table) htne
    exact ⟨t, ht1, hpermT.mem_iff.1 ht2, fun q hq => ht3 q (hpermT.mem_iff.2 hq)⟩

/-- Witness for C7 at a concrete gap vector and table. -/
theorem narrative_selection_witness :
    (([("A", 3), ("B", -1), ("C", 5), ("D", -4)] : List (String × ℚ)) ≠ [] ∧
      ([("X", 70), ("Y", 80)] : List (String × ℚ)) ≠ []) ∧
    NarrativeSpec [("A", 3), ("B", -1), ("C", 5), ("D", -4)] [("X", 70), ("Y", 80)] :=
  ⟨⟨by simp, by simp⟩,
   narrative_selection [("A", 3), ("B", -1), ("C", 5), ("D", -4)]
     [("X", 70), ("Y", 80)] (by simp) (by simp)⟩

/-! ## C8: per-feature error boundary -/

/-- C8: for every input, the `update` callbacks are total and errors
from the core logic never propagate: a successful core run is returned
with empty error text, and any core exception is caught at the boundary
and becomes the placeholder error-annotation figure plus the error text
(for `src/simulator.py` additionally the fixed error narrative). -/
theorem update_never_raises :
    ∀ (Input : Type) (core : Input → Except String PolicyFig)
      (core3 : Input → Except String (PolicyFig × String)) (kwargs : Input),
    ((∃ figure, core kwargs = .ok figure ∧ policyUpdate core kwargs = (figure, "")) ∨
      (∃ e, core kwargs = .error e ∧
        policyUpdate core kwargs = (errorPlaceholder, "Error updating chart: " ++ e))) ∧
    ((∃ fn, core3 kwargs = .ok fn ∧ simFeatureUpdate core3 kwargs = (fn.1, fn.2, "")) ∨
      (∃ e, core3 kwargs = .error e ∧
        simFeatureUpdate core3 kwargs =
          (errorPlaceholder, "Error generating AI narrative.",
            "Error updating chart: " ++ e))) := by
  intro Input core core3 kwargs
  constructor
  · cases hc : core kwargs with
    | ok figure =>
      exact Or.inl ⟨figure, rfl, by simp [policyUpdate, hc]⟩
    | error e =>
      exact Or.inr ⟨e, rfl, by simp [policyUpdate, hc]⟩
  · cases hc : core3 kwargs with
    | ok fn =>
      exact Or.inl ⟨fn, rfl, by simp [simFeatureUpdate, hc]⟩
    | error e =>
      exact Or.inr ⟨e, rfl, by simp [simFeatureUpdate, hc]⟩

/-! ## C10: `None` control inputs fall back to the feature defaults -/

/-- C10 (implicit): at each feature's update logic, a `None` (or absent)
control input is replaced by that feature's fixed default — simulator:
country "United States", dimension `environment`, improvement 10;
policy: dimension `environment`, boosts 0; diagnostic: country
"Finland" — so the result equals the result of calling the logic with
the default substituted, for every other input. -/
theorem none_inputs_use_defaults :
    (∀ (df : List SimRow) (d? : Option Dim) (i? : Option ℝ),
      simUpdateLogic df none d? i? = simUpdateLogic df (some "United States") d? i?) ∧
    (∀ (df : List SimRow) (c? : Option String) (i? : Option ℝ),
      simUpdateLogic df c? none i? = simUpdateLogic df c? (some .environment) i?) ∧
    (∀ (df : List SimRow) (c? : Option String) (d? : Option Dim),
      simUpdateLogic df c? d? none = simUpdateLogic df c? d? (some 10)) ∧
    (∀ (df : List PolicyRow) (eb? edb? jb? : Option ℚ),
      policyUpdateLogic df none eb? edb? jb? =
        policyUpdateLogic df (some .environment) eb? edb? jb?) ∧
    (∀ (df : List PolicyRow) (d? : Option Dim) (edb? jb? : Option ℚ),
      policyUpdateLogic df d? none edb? jb? =
        policyUpdateLogic df d? (some 0) edb? jb?) ∧
    (∀ (df : List PolicyRow) (d? : Option Dim) (eb? jb? : Option ℚ),
      policyUpdateLogic df d? eb? none jb? =
        policyUpdateLogic df d? eb? (some 0) jb?) ∧
    (∀ (df : List PolicyRow) (d? : Option Dim) (eb? edb? : Option ℚ),
      policyUpdateLogic df d? eb? edb? none =
        policyUpdateLogic df d? eb? edb? (some 0)) ∧
    (∀ df : List DiagRow,
      diagUpdateLogic df none = diagUpdateLogic df (some "Finland")) :=
  ⟨fun _ _ _ => rfl, fun _ _ _ => rfl, fun _ _ _ => rfl, fun _ _ _ _ => rfl,
   fun _ _ _ _ => rfl, fun _ _ _ _ => rfl, fun _ _ _ _ => rfl, fun _ => rfl⟩
